import Mathlib

/-!
Verification of the Annotation Overlay Engine (`src/js/modules/pdf-editor.js`,
class `PDFEditor`).

The editor keeps a raster overlay canvas over a rendered PDF page, a bounded
linear undo/redo history of full-canvas `ImageData` snapshots, and per-tool
transient state (text edit in progress, drawing in progress).  The embedding
below translates the relevant fields of the `PDFEditor` object and its methods
into pure functions on an explicit state record.

External platform primitives (the 2D canvas context's `fillText`, `fillRect`,
`drawImage` compositing) are not code of this repository; they enter the model
as parameters (`CanvasPrims`, a compositing function), while the canvas-buffer
primitives with fully specified pixel semantics (`getImageData`,
`putImageData`, `clearRect` over the whole canvas, the bitmap reset caused by
assigning `canvas.width`/`canvas.height`) are modelled concretely.
-/

namespace PdfEditor

/-- A canvas pixel buffer: the counterpart of a DOM `ImageData` (and of the
backing store of a `<canvas>`).  `pixels` is the row-major buffer; one `Nat`
stands for one RGBA pixel value. -/
structure ImageData where
  width : Nat
  height : Nat
  pixels : List Nat
deriving Repr, DecidableEq

/-- The pixel of `img` at column `x`, row `y` (0 outside the buffer). -/
def pixelAt (img : ImageData) (x y : Nat) : Nat :=
  img.pixels.getD (y * img.width + x) 0

/-- The all-transparent buffer of a `w × h` canvas. -/
def blankPixels (w h : Nat) : List Nat :=
  List.replicate (w * h) 0

/-- `ctx.putImageData(src, 0, 0)`: writes `src`'s pixels onto `dest` at the
origin, clipped to `dest`'s bounds; pixels of `dest` outside `src`'s extent
are unchanged.  The destination canvas keeps its own dimensions. -/
def putImageData (src dest : ImageData) : ImageData :=
  { dest with
    pixels := (List.range (dest.width * dest.height)).map (fun i =>
      let x := i % dest.width
      let y := i / dest.width
      if x < src.width ∧ y < src.height then pixelAt src x y else pixelAt dest x y) }

/-- A sentinel for an out-of-bounds JavaScript array read (`undefined`);
only ever produced outside the guards the code itself establishes. -/
def noImage : ImageData := ⟨0, 0, []⟩

/-- The external 2D-context drawing primitives the editor calls but does not
implement: `fillText` (one line of text at a position, with fill color, font
size and family) and the highlight `fillRect` (with the fill color; the 0.3
global alpha of `startHighlight` is folded into the primitive). -/
structure CanvasPrims where
  fillText : String → Nat → ℚ → String → Nat → String → ImageData → ImageData
  fillRect : Int → Int → Nat → Nat → String → ImageData → ImageData

/-- The state of a `PDFEditor` instance: its fields from the constructor,
plus the DOM objects it reads (the text-editor element's content and
position, the engine's loaded document, the page canvas `#pdf-canvas`).
`pageEverRendered` records whether a `pageRendered` notification has ever
been received. -/
structure EditorState where
  isEditMode : Bool
  currentTool : String
  editCanvas : ImageData
  editCanvasCursor : String
  editHistory : List ImageData
  historyIndex : Int
  maxHistorySize : Nat
  textColor : String
  textSize : Nat
  textFont : String
  strokeColor : String
  strokeWidth : Nat
  fillColor : String
  editingText : Bool
  textEditorVisible : Bool
  textEditorContent : String
  textEditorLeft : Nat
  textEditorTop : Nat
  selectedElement : Option Nat
  isDrawing : Bool
  drawPath : List (Nat × Nat)
  engineAttached : Bool
  engineHasPDF : Bool
  pageEverRendered : Bool
  pdfCanvas : ImageData
deriving Repr, DecidableEq

/-- `String.prototype.trim`: strip leading and trailing whitespace. -/
def jsTrim (t : String) : String :=
  ⟨((t.data.dropWhile Char.isWhitespace).reverse.dropWhile Char.isWhitespace).reverse⟩

/-- `ctx.getImageData(0, 0, canvas.width, canvas.height)` in `saveState`:
a full snapshot of the overlay canvas. -/
def getImageData (s : EditorState) : ImageData :=
  s.editCanvas

/-- `saveState()`: truncate the history after the current index, append a
full snapshot of the overlay, and either evict from the front (when the
capacity of `maxHistorySize` would be exceeded) or advance the index. -/
def saveState (s : EditorState) : EditorState :=
  let hist := s.editHistory.take (s.historyIndex + 1).toNat
  let hist2 := hist ++ [getImageData s]
  if hist2.length > s.maxHistorySize then
    { s with editHistory := hist2.drop 1 }
  else
    { s with editHistory := hist2, historyIndex := s.historyIndex + 1 }

/-- `canUndo()`. -/
def canUndo (s : EditorState) : Bool :=
  s.historyIndex > 0

/-- `canRedo()`. -/
def canRedo (s : EditorState) : Bool :=
  s.historyIndex < (s.editHistory.length : Int) - 1

/-- `restoreState(imageData)`: repaint the overlay from a snapshot via
`putImageData` (no dimension check of any kind). -/
def restoreState (imageData : ImageData) (s : EditorState) : EditorState :=
  { s with editCanvas := putImageData imageData s.editCanvas }

/-- `undo()`. -/
def undo (s : EditorState) : EditorState :=
  if canUndo s then
    let s1 := { s with historyIndex := s.historyIndex - 1 }
    restoreState (s1.editHistory.getD s1.historyIndex.toNat noImage) s1
  else s

/-- `redo()`. -/
def redo (s : EditorState) : EditorState :=
  if canRedo s then
    let s1 := { s with historyIndex := s.historyIndex + 1 }
    restoreState (s1.editHistory.getD s1.historyIndex.toNat noImage) s1
  else s

/-- `cancelTextEdit()`: close and empty the floating text editor. -/
def cancelTextEdit (s : EditorState) : EditorState :=
  { s with editingText := false, textEditorVisible := false, textEditorContent := "" }

/-- `addTextElement(text, x, y)`: rasterize the text onto the overlay with
the current color/size/font, one `fillText` per newline-delimited line, line
`i` at vertical offset `i * textSize * 1.2`. -/
def addTextElement (p : CanvasPrims) (text : String) (x y : Nat) (s : EditorState) : EditorState :=
  let lines := text.splitOn "\n"
  { s with
    editCanvas := (lines.enum).foldl
      (fun img li =>
        p.fillText li.2 x ((y : ℚ) + (li.1 : ℚ) * (s.textSize : ℚ) * (6 / 5))
          s.textColor s.textSize s.textFont img)
      s.editCanvas }

/-- `finishTextEdit()`: when no edit is in progress or the live content trims
to empty, just cancel; otherwise rasterize the content at the editor's
position, close the editor, and capture a history snapshot. -/
def finishTextEdit (p : CanvasPrims) (s : EditorState) : EditorState :=
  if s.editingText = false ∨ jsTrim s.textEditorContent = "" then
    cancelTextEdit s
  else
    let text := s.textEditorContent
    let x := s.textEditorLeft
    let y := s.textEditorTop
    let s1 := addTextElement p text x y s
    let s2 := cancelTextEdit s1
    saveState s2

/-- `clearSelection()`. -/
def clearSelection (s : EditorState) : EditorState :=
  { s with selectedElement := none }

/-- `setTool(tool)`: record the tool, finish any pending text edit, clear the
selection, and set the cursor (the `switch` falls through to `crosshair` for
every unrecognized tool). -/
def setTool (p : CanvasPrims) (tool : String) (s : EditorState) : EditorState :=
  let s1 := { s with currentTool := tool }
  let s2 := finishTextEdit p s1
  let s3 := clearSelection s2
  let cursor :=
    if tool = "text" then "text"
    else if tool = "draw" then "crosshair"
    else if tool = "highlight" then "cell"
    else if tool = "select" then "default"
    else "crosshair"
  { s3 with editCanvasCursor := cursor }

/-- `startTextEdit(x, y)`: finish any existing edit, then open the floating
text editor, empty, at the pointer position. -/
def startTextEdit (p : CanvasPrims) (x y : Nat) (s : EditorState) : EditorState :=
  let s1 := finishTextEdit p s
  { s1 with
    editingText := true
    textEditorVisible := true
    textEditorLeft := x
    textEditorTop := y
    textEditorContent := "" }

/-- `startDrawing(x, y)`: begin a freehand path (the `beginPath`/`moveTo`/
stroke-style calls configure the context's path state and touch no raster
pixel). -/
def startDrawing (x y : Nat) (s : EditorState) : EditorState :=
  { s with isDrawing := true, drawPath := [(x, y)] }

/-- `startHighlight(x, y)`: paint the fixed 100×20 semi-transparent rectangle
at `(x-50, y-5)` and capture a snapshot. -/
def startHighlight (p : CanvasPrims) (x y : Nat) (s : EditorState) : EditorState :=
  let s1 := { s with
    editCanvas := p.fillRect ((x : Int) - 50) ((y : Int) - 5) 100 20 s.fillColor s.editCanvas }
  saveState s1

/-- `selectElement(x, y)`: currently only clears the selection. -/
def selectElement (_x _y : Nat) (s : EditorState) : EditorState :=
  clearSelection s

/-- `handleEditMouseDown`: gated on edit mode, dispatches the pointer-down to
the active tool's start handler (coordinates already in surface space). -/
def handleEditMouseDown (p : CanvasPrims) (x y : Nat) (s : EditorState) : EditorState :=
  if s.isEditMode = false then s
  else if s.currentTool = "text" then startTextEdit p x y s
  else if s.currentTool = "draw" then startDrawing x y s
  else if s.currentTool = "highlight" then startHighlight p x y s
  else if s.currentTool = "select" then selectElement x y s
  else s

/-- The editor's reaction to the engine's `pageRendered` notification
(`syncOverlaySize`): the overlay canvas takes the freshly rendered page
canvas's pixel dimensions.  Assigning `canvas.width`/`canvas.height` resets
the bitmap to all-transparent (HTML canvas semantics).  The page canvas
`#pdf-canvas` now holds the rendered page. -/
def onPageRendered (page : ImageData) (s : EditorState) : EditorState :=
  { s with
    editCanvas := ⟨page.width, page.height, blankPixels page.width page.height⟩
    pdfCanvas := page
    pageEverRendered := true }

/-- `clearAllEdits()`: clear the whole overlay raster, reset the history, and
then call `saveState()`. -/
def clearAllEdits (s : EditorState) : EditorState :=
  let s1 := { s with
    editCanvas := { s.editCanvas with
      pixels := blankPixels s.editCanvas.width s.editCanvas.height } }
  let s2 := { s1 with editHistory := [], historyIndex := -1 }
  saveState s2

/-- The engine's `loadPDF` resolving (`pdf-engine.js` line 84): the engine now
has a `currentPDF`; no page has been rendered by this alone. -/
def loadPDFDone (s : EditorState) : EditorState :=
  { s with engineHasPDF := true }

/-- `ctx.drawImage(src, 0, 0)`: composite `src` over `dest` at the origin,
clipped to `dest`; `comp destPixel srcPixel` is the external source-over
blending of one pixel. -/
def drawImage (comp : Nat → Nat → Nat) (src dest : ImageData) : ImageData :=
  { dest with
    pixels := (List.range (dest.width * dest.height)).map (fun i =>
      let x := i % dest.width
      let y := i / dest.width
      if x < src.width ∧ y < src.height then comp (pixelAt dest x y) (pixelAt src x y)
      else pixelAt dest x y) }

/-- `exportAsImage()`: a fresh canvas with the page canvas's dimensions, the
page drawn first, the overlay drawn on top. -/
def exportAsImage (comp : Nat → Nat → Nat) (s : EditorState) : ImageData :=
  let combined : ImageData :=
    ⟨s.pdfCanvas.width, s.pdfCanvas.height, blankPixels s.pdfCanvas.width s.pdfCanvas.height⟩
  drawImage comp s.editCanvas (drawImage comp s.pdfCanvas combined)

/-- `exportEditedPDF()`: fails with `No PDF loaded` when no engine is attached
or the engine has no current document; otherwise returns the composite. -/
def exportEditedPDF (comp : Nat → Nat → Nat) (s : EditorState) : Except String ImageData :=
  if s.engineAttached = false ∨ s.engineHasPDF = false then
    Except.error "No PDF loaded"
  else
    Except.ok (exportAsImage comp s)

/-- Pixel-identity of two rasters: same dimensions, same pixel at every
in-bounds coordinate. -/
def pixelIdentical (a b : ImageData) : Prop :=
  a.width = b.width ∧ a.height = b.height ∧
    ∀ x y, x < a.width → y < a.height → pixelAt a x y = pixelAt b x y

/-- A sequence of captures: before each `saveState()` the overlay holds the
corresponding raster (the edits between captures are arbitrary). -/
def capturesFrom (imgs : List ImageData) (s : EditorState) : EditorState :=
  imgs.foldl (fun st img => saveState { st with editCanvas := img }) s

/-! ### Concrete test fixtures -/

/-- A 1×1 test raster. -/
def imgA : ImageData := ⟨1, 1, [5]⟩

/-- Another 1×1 test raster. -/
def imgB : ImageData := ⟨1, 1, [7]⟩

/-- A small editor state: the constructor's field values, with a 2×2 overlay
canvas, edit mode on, empty history. -/
def baseState : EditorState where
  isEditMode := true
  currentTool := "text"
  editCanvas := ⟨2, 2, blankPixels 2 2⟩
  editCanvasCursor := "crosshair"
  editHistory := []
  historyIndex := -1
  maxHistorySize := 50
  textColor := "#000000"
  textSize := 12
  textFont := "Helvetica"
  strokeColor := "#ff0000"
  strokeWidth := 2
  fillColor := "#ffff00"
  editingText := false
  textEditorVisible := false
  textEditorContent := ""
  textEditorLeft := 0
  textEditorTop := 0
  selectedElement := none
  isDrawing := false
  drawPath := []
  engineAttached := false
  engineHasPDF := false
  pageEverRendered := false
  pdfCanvas := ⟨2, 2, blankPixels 2 2⟩

/-- A state after two captures: history `[imgA, imgB]`, index 1. -/
def twoState : EditorState :=
  { baseState with editHistory := [imgA, imgB], historyIndex := 1 }

/-- Inert drawing primitives, for concrete evaluation. -/
def primsId : CanvasPrims :=
  ⟨fun _ _ _ _ _ _ img => img, fun _ _ _ _ _ img => img⟩

/-- Source-over blending stand-in, for concrete evaluation. -/
def compOver : Nat → Nat → Nat := fun _ src => src

/-! ### Claims -/

/-- C1, counterexample: starting from an empty history, after
`capture, capture, undo, capture` the history holds 2 entries, not 3, so the
claimed conjunction (`canRedo` false AND length 3) is false. -/
theorem c1_counterexample :
    ¬ (canRedo (saveState (undo (saveState (saveState baseState)))) = false ∧
       (saveState (undo (saveState (saveState baseState)))).editHistory.length = 3) := by
  decide

/-- C1 (amended): from any empty-history state, after
`capture, capture, undo, capture`, `canRedo()` is false and the history
contains exactly 2 entries (the truncation drops the undone entry before the
new one is appended). -/
theorem c1_branch_truncation (s : EditorState)
    (hh : s.editHistory = []) (hi : s.historyIndex = -1) (hm : s.maxHistorySize = 50) :
    canRedo (saveState (undo (saveState (saveState s)))) = false ∧
    (saveState (undo (saveState (saveState s)))).editHistory.length = 2 := by
  simp [saveState, undo, canUndo, canRedo, restoreState, getImageData, hh, hi, hm]

/-- C1 witness: the amended law at the concrete base state. -/
theorem c1_branch_truncation_witness :
    baseState.editHistory = [] ∧
    (canRedo (saveState (undo (saveState (saveState baseState)))) = false ∧
     (saveState (undo (saveState (saveState baseState)))).editHistory.length = 2) :=
  ⟨rfl, c1_branch_truncation baseState rfl rfl rfl⟩

/-- C4, counterexample: with two captured entries (history `[imgA, imgB]`,
index 1), a page-rendered notification with new 3×3 dimensions leaves
`canUndo()` true and the history non-empty — the claim's "canUndo() returns
false" and "clears the history" are both false at this state. -/
theorem c4_counterexample :
    ¬ (canUndo (onPageRendered ⟨3, 3, blankPixels 3 3⟩ twoState) = false ∧
       (onPageRendered ⟨3, 3, blankPixels 3 3⟩ twoState).editHistory = []) := by
  decide

/-- C4 (amended): a page-rendered notification resets the overlay raster to
blank at the new dimensions, but leaves the history and the current pointer
untouched, so `canUndo()` is unchanged (in particular it stays false after a
single capture, where it was already false). -/
theorem c4_sync_resets_raster_not_history (page : ImageData) (s : EditorState) :
    (onPageRendered page s).editCanvas = ⟨page.width, page.height, blankPixels page.width page.height⟩ ∧
    (onPageRendered page s).editHistory = s.editHistory ∧
    (onPageRendered page s).historyIndex = s.historyIndex ∧
    canUndo (onPageRendered page s) = canUndo s := by
  simp [onPageRendered, canUndo]

/-- C5, counterexample: after `clearAllEdits()` the history is not empty — the
trailing `saveState()` pushes a snapshot of the blank canvas, leaving exactly
one entry. -/
theorem c5_counterexample :
    (clearAllEdits twoState).editHistory ≠ [] ∧
    (clearAllEdits twoState).editHistory.length = 1 := by
  decide

/-- C5 (amended): `clearAllEdits()` wipes the overlay raster and resets the
history to a single entry — a snapshot of the blank raster — with the current
pointer at 0. -/
theorem c5_clear (s : EditorState) (hm : s.maxHistorySize = 50) :
    (clearAllEdits s).editCanvas.pixels = blankPixels s.editCanvas.width s.editCanvas.height ∧
    (clearAllEdits s).editHistory = [(clearAllEdits s).editCanvas] ∧
    (clearAllEdits s).historyIndex = 0 := by
  simp [clearAllEdits, saveState, getImageData, hm]

/-- C5 witness: the amended law at the concrete two-capture state. -/
theorem c5_clear_witness :
    twoState.maxHistorySize = 50 ∧
    ((clearAllEdits twoState).editCanvas.pixels
        = blankPixels twoState.editCanvas.width twoState.editCanvas.height ∧
     (clearAllEdits twoState).editHistory = [(clearAllEdits twoState).editCanvas] ∧
     (clearAllEdits twoState).historyIndex = 0) :=
  ⟨rfl, c5_clear twoState rfl⟩

/-- `finishTextEdit` never changes the active tool. -/
theorem finishTextEdit_keeps_currentTool (p : CanvasPrims) (s : EditorState) :
    (finishTextEdit p s).currentTool = s.currentTool := by
  unfold finishTextEdit saveState cancelTextEdit addTextElement getImageData
  split
  · rfl
  · dsimp only
    split <;> rfl

/-- C7, counterexample: `setTool` with the unrecognized variant `"bogus"`
is not rejected — the active tool is switched to `"bogus"`. -/
theorem c7_counterexample :
    (setTool primsId "bogus" baseState).currentTool = "bogus" := by
  decide

/-- C7 (amended): `setTool` accepts every tool variant: the active tool is
always switched to the given variant; an unrecognized variant merely falls to
the default crosshair cursor, and no InvalidTool condition is signaled. -/
theorem c7_setTool_accepts_any (p : CanvasPrims) (t : String) (s : EditorState)
    (h1 : t ≠ "text") (h2 : t ≠ "draw") (h3 : t ≠ "highlight") (h4 : t ≠ "select") :
    (setTool p t s).currentTool = t ∧
    (setTool p t s).editCanvasCursor = "crosshair" := by
  refine ⟨?_, ?_⟩
  · show (setTool p t s).currentTool = t
    unfold setTool
    simp [clearSelection, finishTextEdit_keeps_currentTool]
  · unfold setTool
    simp [h1, h2, h3, h4]

/-- C7 witness: the unrecognized variant `"circle"` at the base state. -/
theorem c7_setTool_accepts_any_witness :
    ("circle" : String) ≠ "text" ∧
    ((setTool primsId "circle" baseState).currentTool = "circle" ∧
     (setTool primsId "circle" baseState).editCanvasCursor = "crosshair") :=
  ⟨by decide,
   c7_setTool_accepts_any primsId "circle" baseState
     (by decide) (by decide) (by decide) (by decide)⟩

/-- A state with the engine attached and a document loaded, but no page ever
rendered (reachable once `loadPDF` resolves, before the first `renderPage`). -/
def loadedState : EditorState :=
  loadPDFDone { baseState with engineAttached := true }

/-- C8, counterexample: with a document loaded but no page ever rendered,
`exportEditedPDF()` does not fail — it returns the composite image. -/
theorem c8_counterexample :
    loadedState.pageEverRendered = false ∧
    exportEditedPDF compOver loadedState = Except.ok (exportAsImage compOver loadedState) :=
  ⟨rfl, rfl⟩

/-- C8 (amended): `exportEditedPDF()` fails with the no-content condition
(`"No PDF loaded"`) exactly when no engine is attached or no document is
loaded; a loaded document with no page yet rendered yields a composite image
instead of a failure. -/
theorem c8_export_guard (comp : Nat → Nat → Nat) (s : EditorState) :
    exportEditedPDF comp s = Except.error "No PDF loaded" ↔
      (s.engineAttached = false ∨ s.engineHasPDF = false) := by
  unfold exportEditedPDF
  split <;> simp_all

/-- Pixel semantics of `putImageData` at an in-bounds destination coordinate:
the pixel comes from the source when the coordinate is inside the source's
extent, else it keeps the destination's old value. -/
theorem pixelAt_putImageData (src dest : ImageData) (x y : Nat)
    (hx : x < dest.width) (hy : y < dest.height) :
    pixelAt (putImageData src dest) x y =
      if x < src.width ∧ y < src.height then pixelAt src x y else pixelAt dest x y := by
  have hw : 0 < dest.width := Nat.lt_of_le_of_lt (Nat.zero_le x) hx
  have hidx : y * dest.width + x < dest.width * dest.height := by
    calc y * dest.width + x
        < y * dest.width + dest.width := Nat.add_lt_add_left hx _
      _ = (y + 1) * dest.width := (Nat.succ_mul y dest.width).symm
      _ ≤ dest.height * dest.width := Nat.mul_le_mul_right _ hy
      _ = dest.width * dest.height := Nat.mul_comm _ _
  have hmod : (y * dest.width + x) % dest.width = x := by
    rw [Nat.add_comm, Nat.add_mul_mod_self_right]
    exact Nat.mod_eq_of_lt hx
  have hdiv : (y * dest.width + x) / dest.width = y := by
    rw [Nat.add_comm, Nat.add_mul_div_right _ _ hw, Nat.div_eq_of_lt hx, Nat.zero_add]
  show (List.map _ (List.range (dest.width * dest.height))).getD (y * dest.width + x) 0 = _
  rw [List.getD_eq_getElem?_getD, List.getElem?_map, List.getElem?_range hidx]
  dsimp only [Option.map_some', Option.getD_some]
  rw [hmod, hdiv]

/-- An overlay of 2×2 pixels whose history entry at index 0 is a mismatched
1×1 snapshot (such entries arise when a geometry sync resizes the overlay
while the history is retained, cf. C4). -/
def mismatchState : EditorState :=
  { baseState with
    editCanvas := ⟨2, 2, [1, 2, 3, 4]⟩
    editHistory := [⟨1, 1, [9]⟩, ⟨2, 2, [1, 2, 3, 4]⟩]
    historyIndex := 1 }

/-- C9, counterexample: undoing onto a 2×2 overlay from a 1×1 history entry
silently writes the mismatched pixels (clipped) onto the raster — the raster
changes and no GeometryMismatch error is signaled (`undo` has no error
result at all). -/
theorem c9_counterexample :
    (undo mismatchState).editCanvas.pixels = [9, 2, 3, 4] ∧
    (undo mismatchState).editCanvas.pixels ≠ mismatchState.editCanvas.pixels := by
  decide

/-- C9 (amended): restore performs no dimension check: `undo` unconditionally
writes the history entry's pixels onto the raster at the origin, clipped to
the overlapping region (pixels outside the entry's extent keep their old
values), and signals no error. -/
theorem c9_restore_writes_clipped (s : EditorState) (h : canUndo s = true) :
    (undo s).editCanvas.width = s.editCanvas.width ∧
    (undo s).editCanvas.height = s.editCanvas.height ∧
    ∀ x y, x < s.editCanvas.width → y < s.editCanvas.height →
      pixelAt (undo s).editCanvas x y =
        if x < (s.editHistory.getD (s.historyIndex - 1).toNat noImage).width ∧
           y < (s.editHistory.getD (s.historyIndex - 1).toNat noImage).height then
          pixelAt (s.editHistory.getD (s.historyIndex - 1).toNat noImage) x y
        else pixelAt s.editCanvas x y := by
  have hu : undo s = restoreState (s.editHistory.getD (s.historyIndex - 1).toNat noImage)
      { s with historyIndex := s.historyIndex - 1 } := by
    unfold undo
    simp [h]
  rw [hu]
  unfold restoreState
  refine ⟨rfl, rfl, ?_⟩
  intro x y hx hy
  exact pixelAt_putImageData _ _ x y hx hy

/-- C9 witness: the clipped-write law at the concrete mismatched state. -/
theorem c9_restore_writes_clipped_witness :
    canUndo mismatchState = true ∧
    ((undo mismatchState).editCanvas.width = mismatchState.editCanvas.width ∧
     (undo mismatchState).editCanvas.height = mismatchState.editCanvas.height ∧
     ∀ x y, x < mismatchState.editCanvas.width → y < mismatchState.editCanvas.height →
       pixelAt (undo mismatchState).editCanvas x y =
         if x < (mismatchState.editHistory.getD
                   (mismatchState.historyIndex - 1).toNat noImage).width ∧
            y < (mismatchState.editHistory.getD
                   (mismatchState.historyIndex - 1).toNat noImage).height then
           pixelAt (mismatchState.editHistory.getD
                      (mismatchState.historyIndex - 1).toNat noImage) x y
         else pixelAt mismatchState.editCanvas x y) :=
  ⟨by decide, c9_restore_writes_clipped mismatchState (by decide)⟩

/-- A state whose overlay matches the snapshot at the current pointer:
history `[imgA, imgB]`, pointer 1, overlay `imgB`. -/
def rtState : EditorState :=
  { baseState with editCanvas := imgB, editHistory := [imgA, imgB], historyIndex := 1 }

/-- C3: for every state where undo is enabled (pointer > 0, pointer in
bounds) and the raster equals the snapshot at the current pointer,
`undo()` immediately followed by `redo()` leaves the overlay raster
pixel-identical to its content before the undo. -/
theorem c3_undo_redo_roundtrip (s : EditorState)
    (h0 : 0 < s.historyIndex)
    (h1 : s.historyIndex < (s.editHistory.length : Int))
    (h2 : s.editCanvas = s.editHistory.getD s.historyIndex.toNat noImage) :
    pixelIdentical ((redo (undo s)).editCanvas) s.editCanvas := by
  have hcu : canUndo s = true := by
    unfold canUndo
    simpa using h0
  have hundo : undo s = { s with
      historyIndex := s.historyIndex - 1
      editCanvas := putImageData
        (s.editHistory.getD (s.historyIndex - 1).toNat noImage) s.editCanvas } := by
    unfold undo restoreState
    simp [hcu]
  have hcr : canRedo (undo s) = true := by
    rw [hundo]
    unfold canRedo
    simp only [decide_eq_true_eq]
    omega
  have hcanvas : (redo (undo s)).editCanvas
      = putImageData (s.editHistory.getD s.historyIndex.toNat noImage)
          (putImageData (s.editHistory.getD (s.historyIndex - 1).toNat noImage) s.editCanvas) := by
    unfold redo
    rw [hcr]
    rw [hundo]
    dsimp only [restoreState]
    rw [Int.sub_add_cancel]
    simp
  rw [hcanvas, ← h2]
  refine ⟨rfl, rfl, ?_⟩
  intro x y hx hy
  have hx' : x < s.editCanvas.width := hx
  have hy' : y < s.editCanvas.height := hy
  have hxd : x < (putImageData
      (s.editHistory.getD (s.historyIndex - 1).toNat noImage) s.editCanvas).width := hx'
  have hyd : y < (putImageData
      (s.editHistory.getD (s.historyIndex - 1).toNat noImage) s.editCanvas).height := hy'
  rw [pixelAt_putImageData s.editCanvas _ x y hxd hyd, if_pos ⟨hx', hy'⟩]

/-- C3 witness: the round trip at the concrete state `rtState`. -/
theorem c3_undo_redo_roundtrip_witness :
    0 < rtState.historyIndex ∧
    pixelIdentical ((redo (undo rtState)).editCanvas) rtState.editCanvas :=
  ⟨by decide, c3_undo_redo_roundtrip rtState (by decide) (by decide) rfl⟩

/-- C6: switching tools while a text edit is in progress whose live content
trims to empty produces no new history entry, leaves the raster unchanged,
and closes the pending edit. -/
theorem c6_whitespace_tool_switch (p : CanvasPrims) (t : String) (s : EditorState)
    (_hedit : s.editingText = true) (hws : jsTrim s.textEditorContent = "") :
    (setTool p t s).editHistory = s.editHistory ∧
    (setTool p t s).editCanvas = s.editCanvas ∧
    (setTool p t s).editingText = false := by
  unfold setTool finishTextEdit
  simp [hws, cancelTextEdit, clearSelection]

/-- A state with a whitespace-only text edit in progress. -/
def wsState : EditorState :=
  { baseState with editingText := true, textEditorVisible := true, textEditorContent := "  " }

/-- C6 witness: switching to the draw tool with live content `"  "`. -/
theorem c6_whitespace_tool_switch_witness :
    wsState.editingText = true ∧
    ((setTool primsId "draw" wsState).editHistory = wsState.editHistory ∧
     (setTool primsId "draw" wsState).editCanvas = wsState.editCanvas ∧
     (setTool primsId "draw" wsState).editingText = false) :=
  ⟨rfl, c6_whitespace_tool_switch primsId "draw" wsState rfl (by decide)⟩

/-- `capturesFrom` never changes the capacity field. -/
theorem capturesFrom_maxHistorySize (imgs : List ImageData) (s : EditorState) :
    (capturesFrom imgs s).maxHistorySize = s.maxHistorySize := by
  induction imgs generalizing s with
  | nil => rfl
  | cons c cs ih =>
    show (capturesFrom cs (saveState { s with editCanvas := c })).maxHistorySize = _
    rw [ih]
    unfold saveState
    dsimp only
    split <;> rfl

/-- One `saveState()` from a state satisfying the history invariant
(index at the last entry, within capacity 50): the snapshot is appended and
exactly the single oldest entry is dropped when the capacity would be
exceeded; the index addresses the last entry again. -/
theorem saveState_snoc (s : EditorState) (c : ImageData)
    (hlen : s.editHistory.length ≤ 50)
    (hidx : s.historyIndex = (s.editHistory.length : Int) - 1)
    (hmax : s.maxHistorySize = 50) :
    (saveState { s with editCanvas := c }).editHistory
        = (s.editHistory ++ [c]).drop (s.editHistory.length + 1 - 50) ∧
    (saveState { s with editCanvas := c }).historyIndex
        = ((saveState { s with editCanvas := c }).editHistory.length : Int) - 1 := by
  unfold saveState getImageData
  dsimp only
  have htake : (s.historyIndex + 1).toNat = s.editHistory.length := by
    rw [hidx]; omega
  rw [htake, List.take_length, hmax]
  by_cases hc : (s.editHistory ++ [c]).length > 50
  · rw [if_pos hc]
    have h50 : s.editHistory.length = 50 := by
      simp only [List.length_append, List.length_singleton] at hc
      omega
    refine ⟨by rw [h50], ?_⟩
    dsimp only
    rw [hidx]
    simp [h50]
  · rw [if_neg hc]
    have hle : s.editHistory.length + 1 ≤ 50 := by
      simp only [List.length_append, List.length_singleton] at hc
      omega
    refine ⟨?_, ?_⟩
    · rw [Nat.sub_eq_zero_of_le hle, List.drop_zero]
    · dsimp only
      rw [hidx]
      simp only [List.length_append, List.length_singleton]
      omega

/-- Dropping from the front of a concatenation that ends in `[a]` keeps the
last element. -/
theorem getLast?_drop_concat {α : Type} (l : List α) (a : α) (k : Nat)
    (hk : k ≤ l.length) :
    ((l ++ [a]).drop k).getLast? = (l ++ [a]).getLast? := by
  rw [List.drop_append_of_le_length hk, List.getLast?_concat, List.getLast?_concat]

/-- C2: for every sequence of captures from an empty history, the history is
exactly the most recent `min n 50` snapshots — never more than 50 entries,
the oldest evicted first — and the current pointer addresses the last
(newest) entry. -/
theorem c2_capacity_eviction (imgs : List ImageData) (s : EditorState)
    (hh : s.editHistory = []) (hi : s.historyIndex = -1) (hm : s.maxHistorySize = 50) :
    (capturesFrom imgs s).editHistory = imgs.drop (imgs.length - 50) ∧
    (capturesFrom imgs s).editHistory.length ≤ 50 ∧
    (capturesFrom imgs s).historyIndex
        = ((capturesFrom imgs s).editHistory.length : Int) - 1 ∧
    (capturesFrom imgs s).editHistory.getLast? = imgs.getLast? := by
  induction imgs using List.reverseRecOn with
  | nil =>
    refine ⟨?_, ?_, ?_, ?_⟩ <;> simp [capturesFrom, hh, hi]
  | append_singleton as c ih =>
    obtain ⟨ihh, ihlen, ihidx, _⟩ := ih
    have hfold : capturesFrom (as ++ [c]) s
        = saveState { capturesFrom as s with editCanvas := c } := by
      unfold capturesFrom
      rw [List.foldl_append]
      rfl
    have hmax' : (capturesFrom as s).maxHistorySize = 50 := by
      rw [capturesFrom_maxHistorySize]; exact hm
    have step := saveState_snoc (capturesFrom as s) c ihlen ihidx hmax'
    have hhist : (capturesFrom (as ++ [c]) s).editHistory
        = (as ++ [c]).drop ((as ++ [c]).length - 50) := by
      rw [hfold, step.1, ihh, List.length_drop, List.length_append,
        List.length_singleton]
      rcases Nat.lt_or_ge as.length 50 with hL | hL
      · have e1 : as.length - 50 = 0 := by omega
        have e2 : as.length - (as.length - 50) + 1 - 50 = 0 := by omega
        have e3 : as.length + 1 - 50 = 0 := by omega
        rw [e2, e3, e1]
        simp
      · have e1 : as.length - (as.length - 50) + 1 - 50 = 1 := by omega
        have hlen50 : (as.drop (as.length - 50)).length = 50 := by
          rw [List.length_drop]; omega
        rw [e1,
          List.drop_append_of_le_length (by omega : 1 ≤ (as.drop (as.length - 50)).length),
          List.drop_drop,
          List.drop_append_of_le_length (by omega : as.length + 1 - 50 ≤ as.length)]
        have e4 : as.length - 50 + 1 = as.length + 1 - 50 := by omega
        rw [e4]
    refine ⟨hhist, ?_, ?_, ?_⟩
    · rw [hhist, List.length_drop]
      omega
    · rw [hfold]
      exact step.2
    · rw [hhist]
      exact getLast?_drop_concat as c _ (by simp [List.length_append])

/-- C2 witness: three captures at the base state. -/
theorem c2_capacity_eviction_witness :
    baseState.editHistory = [] ∧
    ((capturesFrom [imgA, imgB, imgA] baseState).editHistory
        = [imgA, imgB, imgA].drop ([imgA, imgB, imgA].length - 50) ∧
     (capturesFrom [imgA, imgB, imgA] baseState).editHistory.length ≤ 50 ∧
     (capturesFrom [imgA, imgB, imgA] baseState).historyIndex
        = ((capturesFrom [imgA, imgB, imgA] baseState).editHistory.length : Int) - 1 ∧
     (capturesFrom [imgA, imgB, imgA] baseState).editHistory.getLast?
        = [imgA, imgB, imgA].getLast?) :=
  ⟨rfl, c2_capacity_eviction [imgA, imgB, imgA] baseState rfl rfl rfl⟩

/-- `saveState()` below capacity with the index at the last entry: the
snapshot is appended, the index advances, the canvas is untouched. -/
theorem saveState_no_evict (s : EditorState)
    (hidx : s.historyIndex = (s.editHistory.length : Int) - 1)
    (hcap : s.editHistory.length < s.maxHistorySize) :
    (saveState s).editHistory = s.editHistory ++ [s.editCanvas] ∧
    (saveState s).historyIndex = s.historyIndex + 1 ∧
    (saveState s).editCanvas = s.editCanvas := by
  unfold saveState getImageData
  dsimp only
  have htake : (s.historyIndex + 1).toNat = s.editHistory.length := by
    rw [hidx]; omega
  rw [htake, List.take_length]
  rw [if_neg (by simp only [List.length_append, List.length_singleton, gt_iff_lt, not_lt]; omega)]
  exact ⟨rfl, rfl, rfl⟩

/-- C10: a pointer-down with the Text tool, while a text edit with non-empty
(after trimming) content is in progress, first commits the pending text —
rasterizing it onto the overlay and appending exactly one new history entry,
a snapshot of the raster with the text — and then opens a fresh empty text
edit at the pointer position. -/
theorem c10_commit_then_open (p : CanvasPrims) (x y : Nat) (s : EditorState)
    (hmode : s.isEditMode = true) (htool : s.currentTool = "text")
    (hedit : s.editingText = true) (hne : jsTrim s.textEditorContent ≠ "")
    (hidx : s.historyIndex = (s.editHistory.length : Int) - 1)
    (hcap : s.editHistory.length < 50) (hmax : s.maxHistorySize = 50) :
    (handleEditMouseDown p x y s).editHistory
        = s.editHistory ++ [(handleEditMouseDown p x y s).editCanvas] ∧
    (handleEditMouseDown p x y s).editCanvas
        = (addTextElement p s.textEditorContent s.textEditorLeft s.textEditorTop s).editCanvas ∧
    (handleEditMouseDown p x y s).editHistory.length = s.editHistory.length + 1 ∧
    (handleEditMouseDown p x y s).editingText = true ∧
    (handleEditMouseDown p x y s).textEditorLeft = x ∧
    (handleEditMouseDown p x y s).textEditorTop = y ∧
    (handleEditMouseDown p x y s).textEditorContent = "" := by
  have hbranch : handleEditMouseDown p x y s = startTextEdit p x y s := by
    unfold handleEditMouseDown
    rw [hmode, htool]
    simp
  have hfin : finishTextEdit p s = saveState (cancelTextEdit
      (addTextElement p s.textEditorContent s.textEditorLeft s.textEditorTop s)) := by
    unfold finishTextEdit
    rw [if_neg (by simp [hedit, hne])]
  have hidx2 : (cancelTextEdit
        (addTextElement p s.textEditorContent s.textEditorLeft s.textEditorTop s)).historyIndex
      = (((cancelTextEdit
        (addTextElement p s.textEditorContent s.textEditorLeft s.textEditorTop s)).editHistory.length : Int)) - 1 :=
    hidx
  have hcap2 : (cancelTextEdit
        (addTextElement p s.textEditorContent s.textEditorLeft s.textEditorTop s)).editHistory.length
      < (cancelTextEdit
        (addTextElement p s.textEditorContent s.textEditorLeft s.textEditorTop s)).maxHistorySize := by
    show s.editHistory.length < s.maxHistorySize
    rw [hmax]; exact hcap
  obtain ⟨hH, hI, hC⟩ := saveState_no_evict (cancelTextEdit
      (addTextElement p s.textEditorContent s.textEditorLeft s.textEditorTop s)) hidx2 hcap2
  have hhist_eq : (cancelTextEdit
      (addTextElement p s.textEditorContent s.textEditorLeft s.textEditorTop s)).editHistory
      = s.editHistory := rfl
  have hcanvas_eq : (cancelTextEdit
      (addTextElement p s.textEditorContent s.textEditorLeft s.textEditorTop s)).editCanvas
      = (addTextElement p s.textEditorContent s.textEditorLeft s.textEditorTop s).editCanvas := rfl
  rw [hbranch]
  unfold startTextEdit
  dsimp only
  rw [hfin]
  refine ⟨?_, ?_, ?_, rfl, rfl, rfl, rfl⟩
  · rw [hH, hC, hhist_eq]
  · rw [hC, hcanvas_eq]
  · rw [hH, hhist_eq]
    simp

/-- A state with a pending text edit holding the content `"Hi"`, one history
entry, index 0. -/
def c10s : EditorState :=
  { baseState with
    editingText := true
    textEditorVisible := true
    textEditorContent := "Hi"
    textEditorLeft := 3
    textEditorTop := 4
    editHistory := [imgA]
    historyIndex := 0 }

/-- C10 witness: pointer-down at (9, 8) with pending text `"Hi"`. -/
theorem c10_witness :
    jsTrim c10s.textEditorContent ≠ "" ∧
    ((handleEditMouseDown primsId 9 8 c10s).editHistory
        = c10s.editHistory ++ [(handleEditMouseDown primsId 9 8 c10s).editCanvas] ∧
     (handleEditMouseDown primsId 9 8 c10s).editCanvas
        = (addTextElement primsId c10s.textEditorContent
            c10s.textEditorLeft c10s.textEditorTop c10s).editCanvas ∧
     (handleEditMouseDown primsId 9 8 c10s).editHistory.length
        = c10s.editHistory.length + 1 ∧
     (handleEditMouseDown primsId 9 8 c10s).editingText = true ∧
     (handleEditMouseDown primsId 9 8 c10s).textEditorLeft = 9 ∧
     (handleEditMouseDown primsId 9 8 c10s).textEditorTop = 8 ∧
     (handleEditMouseDown primsId 9 8 c10s).textEditorContent = "") :=
  ⟨by decide,
   c10_commit_then_open primsId 9 8 c10s rfl rfl rfl (by decide) (by decide)
     (by decide) rfl⟩

end PdfEditor
